import Mathlib

/-
Verification development for the n8n-metrics-dashboard repository.

Shallow embedding of the aggregation/filtering logic:
 - client/src/pages/dashboard.tsx : filteredStats, filteredDailyStats, formatDuration
 - components/execution-table.tsx : filteredData predicate, formatDuration
 - server routes : GET /api/executions/stats, GET /api/executions/daily,
   lenient numeric query-parameter parsing

Modelling conventions:
 - Timestamps (started_at, created_at) are integer epoch milliseconds; the
   local calendar day of a timestamp t is t.fdiv msPerDay, so date-fns
   startOfDay / endOfDay become integer arithmetic (the model ignores DST
   shifts, which are not representable in a pure embedding).
 - JS numbers that carry averages or rates are modelled as rationals; the
   JS Math.round is jsRound (floor of x + 1/2, ties away from minus infinity,
   exactly the JS behaviour on rationals).
 - A JS Map with string keys is modelled as an insertion-ordered association
   list (amGet / amSet), matching Map.get / Map.set semantics: set on an
   existing key updates in place, otherwise appends.
 - status is the five-value enumeration declared in shared/schema.ts
   (ExecutionStatus); nullable columns are Option.
-/

namespace NDash

/-- The ExecutionStatus enumeration of shared/schema.ts. -/
inductive Status where
  | success
  | error
  | running
  | waiting
  | canceled
deriving DecidableEq, Repr

/-- One execution record (the columns selected by GET /api/executions; the
two JSON blob columns and the numeric row id are never read by the
aggregation logic and are omitted). -/
structure ExecutionLog where
  execution_id : String := ""
  workflow_id : String := ""
  workflow_name : String := ""
  status : Status := Status.success
  started_at : Option Int := none
  finished_at : Option Int := none
  duration_ms : Option Int := none
  mode : Option String := none
  node_count : Option Int := none
  error_message : Option String := none
  created_at : Int := 0
  n8n_instance : Option String := none
deriving DecidableEq, Repr

/-- The date range of the UI date picker: from is a picked day, to may be
absent (single-day range). Both are timestamps of some instant inside the
picked calendar day. -/
structure DateRange where
  fromDate : Int
  toDate : Option Int := none
deriving DecidableEq, Repr

/-- The ExecutionFilters value owned by the dashboard page (dashboard.tsx,
initial state lines 53-59): every dimension independently nullable. -/
structure ExecutionFilters where
  instanceFilter : Option String := none
  statusFilter : Option Status := none
  workflowFilter : Option String := none
  modeFilter : Option String := none
  dateRange : Option DateRange := none
deriving DecidableEq, Repr

/-- The ExecutionStats object of shared/schema.ts. Averages and rates are
modelled as rationals. -/
structure ExecutionStats where
  totalExecutions : Nat
  successCount : Nat
  errorCount : Nat
  runningCount : Nat
  waitingCount : Nat
  canceledCount : Nat
  avgDurationMs : ℚ
  successRate : ℚ
deriving DecidableEq, Repr

/-- The DailyStats object of shared/schema.ts; date is the calendar-day
index (the yyyy-MM-dd grouping key). -/
structure DailyStats where
  date : Int
  total : Nat
  success : Nat
  error : Nat
deriving DecidableEq, Repr

/- ---------------- time helpers (date-fns startOfDay / endOfDay) -------- -/

def msPerDay : Int := 86400000

/-- date-fns startOfDay on an epoch-millisecond timestamp. -/
def startOfDay (t : Int) : Int := msPerDay * (t.fdiv msPerDay)

/-- date-fns endOfDay: the last millisecond (23:59:59.999) of the day of t. -/
def endOfDay (t : Int) : Int := startOfDay t + (msPerDay - 1)

/-- Calendar-day index of a timestamp (the format "yyyy-MM-dd" grouping key). -/
def dayOf (t : Int) : Int := t.fdiv msPerDay

/-- JS Math.round on a rational: floor of x + 1/2. -/
def jsRound (q : ℚ) : Int := ⌊q + 1 / 2⌋

/- ---------------- client-side filter predicates (dashboard.tsx) -------- -/

/-- Does a record pass the count filters (dashboard.tsx lines 152-175):
workflowFilter (exact equality on workflow_name), modeFilter (exact equality
on mode), dateRange (started_at within [startOfDay from, endOfDay (to or
from)] inclusive, the clause being skipped when dateRange or started_at is
absent). statusFilter and instanceFilter are not consulted. -/
def matchesCountFilters (filters : ExecutionFilters) (item : ExecutionLog) : Bool :=
  (match filters.workflowFilter with
   | some w => item.workflow_name == w
   | none => true) &&
  (match filters.modeFilter with
   | some m => item.mode == some m
   | none => true) &&
  (match filters.dateRange, item.started_at with
   | some dr, some t =>
      decide (startOfDay dr.fromDate ≤ t ∧ t ≤ endOfDay (dr.toDate.getD dr.fromDate))
   | _, _ => true)

/-- The status predicate: pass iff statusFilter is absent or equal to the
record status. -/
def matchesStatusFilter (filters : ExecutionFilters) (item : ExecutionLog) : Bool :=
  match filters.statusFilter with
  | some s => item.status == s
  | none => true

/-- dashboard.tsx line 144: workflowFilter, modeFilter or dateRange active. -/
def hasCountFilters (filters : ExecutionFilters) : Bool :=
  filters.workflowFilter.isSome || filters.modeFilter.isSome || filters.dateRange.isSome

/-- dashboard.tsx line 145: any of the four in-memory dimensions active
(instanceFilter is applied at the query boundary and is not consulted). -/
def hasAnyFilters (filters : ExecutionFilters) : Bool :=
  hasCountFilters filters || filters.statusFilter.isSome

/- ---------------- client-side re-aggregation (dashboard.tsx 143-210) ---- -/

/-- JS reduce((a, b) => a + b, 0). -/
def sumDurations (l : List Int) : Int := l.foldl (· + ·) 0

/-- The recompute branch of the filteredStats memo (dashboard.tsx lines
152-209): counts from the count-filtered subset, average duration from that
subset further narrowed by statusFilter, restricted to non-null durations. -/
def computeFilteredStats (executions : List ExecutionLog) (filters : ExecutionFilters) :
    ExecutionStats :=
  let filteredForCounts := executions.filter (fun item => matchesCountFilters filters item)
  let filteredForDuration : List ExecutionLog :=
    match filters.statusFilter with
    | some s => filteredForCounts.filter (fun item => item.status == s)
    | none => filteredForCounts
  let successCount := (filteredForCounts.filter (fun e => e.status == Status.success)).length
  let errorCount := (filteredForCounts.filter (fun e => e.status == Status.error)).length
  let runningCount := (filteredForCounts.filter (fun e => e.status == Status.running)).length
  let waitingCount := (filteredForCounts.filter (fun e => e.status == Status.waiting)).length
  let canceledCount := (filteredForCounts.filter (fun e => e.status == Status.canceled)).length
  let durations := filteredForDuration.filterMap (fun e => e.duration_ms)
  let avgDurationMs : ℚ :=
    if durations.length > 0 then (sumDurations durations : ℚ) / (durations.length : ℚ) else 0
  let totalExecutions := filteredForCounts.length
  { totalExecutions := totalExecutions
    successCount := successCount
    errorCount := errorCount
    runningCount := runningCount
    waitingCount := waitingCount
    canceledCount := canceledCount
    avgDurationMs := avgDurationMs
    successRate :=
      if totalExecutions > 0 then ((successCount : ℚ) / (totalExecutions : ℚ)) * 100 else 0 }

/-- The full filteredStats memo (dashboard.tsx lines 143-210), including the
short circuit: with no active filter, or no fetched executions, the
server-supplied stats object is returned unchanged (stats is null when the
stats query has not resolved). -/
def filteredStats (executions : Option (List ExecutionLog)) (filters : ExecutionFilters)
    (stats : Option ExecutionStats) : Option ExecutionStats :=
  match executions with
  | none => stats
  | some ex =>
      if hasAnyFilters filters then some (computeFilteredStats ex filters) else stats

/- ---------------- insertion-ordered map (JS Map) ------------------------ -/

/-- JS Map.get on an insertion-ordered association list. -/
def amGet (m : List (Int × α)) (k : Int) : Option α :=
  (m.find? (fun p => p.1 == k)).map (fun p => p.2)

/-- JS Map.set: update in place when the key is present, append otherwise. -/
def amSet (m : List (Int × α)) (k : Int) (v : α) : List (Int × α) :=
  if (m.find? (fun p => p.1 == k)).isSome then
    m.map (fun p => if p.1 == k then (k, v) else p)
  else
    m ++ [(k, v)]

/-- One total/success/error accumulator cell of a daily-stats map. -/
structure DayBucket where
  total : Nat
  success : Nat
  error : Nat
deriving DecidableEq, Repr

def zeroBucket : DayBucket := { total := 0, success := 0, error := 0 }

/- ---------------- client-side daily recompute (dashboard.tsx 213-266) --- -/

/-- Insert a bucket into a date-ascending list (the sort by localeCompare of
the yyyy-MM-dd keys). -/
def insertAsc (b : DailyStats) : List DailyStats → List DailyStats
  | [] => [b]
  | c :: cs => if b.date ≤ c.date then b :: c :: cs else c :: insertAsc b cs

def sortByDate (l : List DailyStats) : List DailyStats := l.foldr insertAsc []

/-- The recompute branch of the filteredDailyStats memo (dashboard.tsx lines
220-265): count-filter the records, group by the calendar day of started_at
(records without a start time are skipped), sort ascending by date. -/
def computeFilteredDaily (executions : List ExecutionLog) (filters : ExecutionFilters) :
    List DailyStats :=
  let filtered := executions.filter (fun item => matchesCountFilters filters item)
  let byDate := filtered.foldl
    (fun m e =>
      match e.started_at with
      | none => m
      | some t =>
          let date := dayOf t
          let existing := (amGet m date).getD zeroBucket
          amSet m date
            { total := existing.total + 1
              success := existing.success + (if e.status == Status.success then 1 else 0)
              error := existing.error + (if e.status == Status.error then 1 else 0) })
    ([] : List (Int × DayBucket))
  sortByDate (byDate.map (fun p =>
    { date := p.1, total := p.2.total, success := p.2.success, error := p.2.error }))

/-- The full filteredDailyStats memo (dashboard.tsx lines 213-266): with no
active count filter (statusFilter deliberately not consulted), or no fetched
executions, the server-supplied daily series is returned (empty when the
daily query has not resolved). -/
def filteredDailyStats (executions : Option (List ExecutionLog)) (filters : ExecutionFilters)
    (dailyStats : Option (List DailyStats)) : List DailyStats :=
  match executions with
  | none => dailyStats.getD []
  | some ex =>
      if hasCountFilters filters then computeFilteredDaily ex filters else dailyStats.getD []

/- ---------------- server-side aggregation (routes file) ----------------- -/

/-- The GET /api/executions/stats reduction (routes file lines 97-126), run
over the instance-filtered rows (the handler selects only status and
duration_ms; the model keeps whole records to allow comparison with the
client path). The average is rounded with Math.round; the success rate is
not. -/
def serverStats (executions : List ExecutionLog) : ExecutionStats :=
  let totalExecutions := executions.length
  let successCount := (executions.filter (fun e => e.status == Status.success)).length
  let errorCount := (executions.filter (fun e => e.status == Status.error)).length
  let runningCount := (executions.filter (fun e => e.status == Status.running)).length
  let waitingCount := (executions.filter (fun e => e.status == Status.waiting)).length
  let canceledCount := (executions.filter (fun e => e.status == Status.canceled)).length
  let durationsWithValues := executions.filterMap (fun e => e.duration_ms)
  let avgDurationMs : ℚ :=
    if durationsWithValues.length > 0 then
      ((jsRound ((sumDurations durationsWithValues : ℚ) / (durationsWithValues.length : ℚ))) : ℚ)
    else 0
  let successRate : ℚ :=
    if totalExecutions > 0 then ((successCount : ℚ) / (totalExecutions : ℚ)) * 100 else 0
  { totalExecutions := totalExecutions
    successCount := successCount
    errorCount := errorCount
    runningCount := runningCount
    waitingCount := waitingCount
    canceledCount := canceledCount
    avgDurationMs := avgDurationMs
    successRate := successRate }

/-- The zero-bucket pre-seeding loop of GET /api/executions/daily (routes
file lines 166-171): for i in 0..days the key is the calendar day of
(now minus (days - i) days). -/
def serverSeed (today : Int) (days : Nat) : List (Int × DayBucket) :=
  (List.range (days + 1)).map (fun (i : Nat) => (today - ((days : Int) - (i : Int)), zeroBucket))

/-- The GET /api/executions/daily handler (routes file lines 136-193) on the
store rows (created_at, status): keep rows with created_at at or after
(now minus days days), pre-seed the window, then fold the rows into the map
(total always, success / else error). The final relabelling of each
yyyy-MM-dd key with toLocaleDateString is presentational and dropped; the
date field keeps the day index of the grouping key. The store returns rows
ascending by created_at; row order only affects the placement of keys
outside the seeded window. -/
def dailyHandler (now : Int) (days : Nat) (rows : List (Int × Status)) : List DailyStats :=
  let startDate := now - (days : Int) * msPerDay
  let fetched := rows.filter (fun r => decide (startDate ≤ r.1))
  let seeded := serverSeed (dayOf now) days
  let finalMap := fetched.foldl
    (fun m r =>
      let dateStr := dayOf r.1
      let existing := (amGet m dateStr).getD zeroBucket
      let b1 : DayBucket := { existing with total := existing.total + 1 }
      let b2 : DayBucket :=
        if r.2 == Status.success then { b1 with success := b1.success + 1 }
        else if r.2 == Status.error then { b1 with error := b1.error + 1 }
        else b1
      amSet m dateStr b2)
    seeded
  finalMap.map (fun p =>
    { date := p.1, total := p.2.total, success := p.2.success, error := p.2.error })

/-- Number of entries of a daily series carrying a given date key. -/
def countDate (l : List DailyStats) (d : Int) : Nat :=
  (l.filter (fun b => b.date == d)).length

/-- Number of entries of a bucket map carrying a given key. -/
def countKeyB (m : List (Int × DayBucket)) (d : Int) : Nat :=
  (m.filter (fun p => p.1 == d)).length

/- ---------------- display formatting ----------------------------------- -/

/-- The execution-table formatDuration (execution-table file lines 203-208,
same thresholds as its DurationCellRenderer): null shows a dash, below one
second whole milliseconds, below one minute rounded seconds, otherwise
rounded minutes. -/
def formatDuration (ms : Option Int) : String :=
  match ms with
  | none => "-"
  | some v =>
      if v < 1000 then toString v ++ "ms"
      else if v < 60000 then toString (jsRound ((v : ℚ) / 1000)) ++ "s"
      else toString (jsRound ((v : ℚ) / 60000)) ++ "m"

/-- The dashboard-page formatDuration used by the Avg Duration stat card
(dashboard.tsx lines 135-138): a falsy input (absent or zero) shows "0ms",
anything else shows rounded whole milliseconds with no unit scaling. -/
def formatDurationDashboard (ms : Option ℚ) : String :=
  match ms with
  | none => "0ms"
  | some q => if q = 0 then "0ms" else toString (jsRound q) ++ "ms"

/- ---------------- lenient query-parameter parsing ----------------------- -/

/-- JS (parseInt(x) || d): the parse result is none when the parameter is
absent or non-numeric (NaN); the JS-falsy results NaN and 0 both fall back
to the default. -/
def jsNumberOr (parsed : Option Int) (dflt : Int) : Int :=
  match parsed with
  | some v => if v = 0 then dflt else v
  | none => dflt

/-- The limit parameter of GET /api/executions (routes file line 46). -/
def limitParam (parsed : Option Int) : Int := jsNumberOr parsed 100

/-- The days parameter of GET /api/executions/daily (routes file line 139). -/
def daysParam (parsed : Option Int) : Int := jsNumberOr parsed 14

/- ---------------- derived notions used in statements -------------------- -/

/-- The count-eligible subset of the glossary: records passing the
workflow / mode / date-range predicate. -/
def countFiltered (executions : List ExecutionLog) (filters : ExecutionFilters) :
    List ExecutionLog :=
  executions.filter (fun e => matchesCountFilters filters e)

/-- The duration-eligible subset: count-eligible records further narrowed by
the status predicate. -/
def durationFiltered (executions : List ExecutionLog) (filters : ExecutionFilters) :
    List ExecutionLog :=
  (countFiltered executions filters).filter (fun e => matchesStatusFilter filters e)

/-- A filter state whose only active dimension is the date range. -/
def onlyDateFilter (dr : DateRange) : ExecutionFilters := { dateRange := some dr }

/- ---------------- concrete sample inputs -------------------------------- -/

/-- Two successful runs of workflow A with durations 1ms and 2ms: their mean
is the non-integer 3/2. -/
def exA : List ExecutionLog :=
  [ { workflow_name := "A", status := Status.success, duration_ms := some 1 },
    { workflow_name := "A", status := Status.success, duration_ms := some 2 } ]

/-- A workflow-only filter state matching every record of exA. -/
def fA : ExecutionFilters := { workflowFilter := some "A" }

/-- One success and one error, both 100ms: the status-narrowed duration
subset differs from the full one, yet both means are 100. -/
def exB : List ExecutionLog :=
  [ { workflow_name := "A", status := Status.success, duration_ms := some 100 },
    { workflow_name := "B", status := Status.error, duration_ms := some 100 } ]

/-- A status-only filter state selecting the error records. -/
def fErr : ExecutionFilters := { statusFilter := some Status.error }

/-- A record with no start timestamp. -/
def rNoStart : ExecutionLog := { workflow_name := "A", status := Status.success }

/- ======================= helper lemmas ======================== -/

theorem jsRound_intCast (n : Int) : jsRound ((n : ℚ)) = n := by
  unfold jsRound
  rw [add_comm, Int.floor_add_int]
  norm_num

theorem jsRound_zero : jsRound 0 = 0 := by
  simpa using jsRound_intCast 0

theorem matchesCountFilters_of_none {f : ExecutionFilters} (hw : f.workflowFilter = none)
    (hm : f.modeFilter = none) (hd : f.dateRange = none) (e : ExecutionLog) :
    matchesCountFilters f e = true := by
  simp [matchesCountFilters, hw, hm, hd]

theorem countFiltered_of_none {f : ExecutionFilters} (hw : f.workflowFilter = none)
    (hm : f.modeFilter = none) (hd : f.dateRange = none) (ex : List ExecutionLog) :
    countFiltered ex f = ex :=
  List.filter_eq_self.mpr (fun e _ => matchesCountFilters_of_none hw hm hd e)

theorem length_filter_status_sum (l : List ExecutionLog) :
    l.length =
      (l.filter (fun e => e.status == Status.success)).length +
      (l.filter (fun e => e.status == Status.error)).length +
      (l.filter (fun e => e.status == Status.running)).length +
      (l.filter (fun e => e.status == Status.waiting)).length +
      (l.filter (fun e => e.status == Status.canceled)).length := by
  induction l with
  | nil => simp
  | cons e t ih =>
      cases h : e.status <;> simp [List.filter_cons, h, beq_iff_eq, ih] <;> omega

theorem rate_spec (succ total : Nat) (h : succ ≤ total) :
    ((if total > 0 then ((succ : ℚ) / (total : ℚ)) * 100 else 0)
      = (if total = 0 then 0 else 100 * (succ : ℚ) / (total : ℚ))) ∧
    0 ≤ (if total > 0 then ((succ : ℚ) / (total : ℚ)) * 100 else 0) ∧
    (if total > 0 then ((succ : ℚ) / (total : ℚ)) * 100 else 0) ≤ 100 := by
  rcases Nat.eq_zero_or_pos total with h0 | hpos
  · subst h0; norm_num
  · have hne : total ≠ 0 := Nat.pos_iff_ne_zero.mp hpos
    have htQ : (0 : ℚ) < total := by exact_mod_cast hpos
    have hleQ : (succ : ℚ) ≤ (total : ℚ) := by exact_mod_cast h
    rw [if_pos hpos, if_neg hne]
    refine ⟨by ring, by positivity, ?_⟩
    have h1 : (succ : ℚ) / (total : ℚ) ≤ 1 := (div_le_one htQ).mpr hleQ
    calc ((succ : ℚ) / (total : ℚ)) * 100 ≤ 1 * 100 :=
          mul_le_mul_of_nonneg_right h1 (by norm_num)
      _ = 100 := by norm_num

/- ======================= claim theorems ======================= -/

/-- C10: for GET /api/executions and GET /api/executions/daily, a numeric
query parameter parsing to 0 is treated exactly like an absent or
non-numeric one and falls back to the default (limit 100, days 14), while a
nonzero parse is respected. -/
theorem C10_zero_param_falls_back_to_default :
    limitParam (some 0) = limitParam none ∧ limitParam none = 100 ∧
    daysParam (some 0) = daysParam none ∧ daysParam none = 14 ∧
    limitParam (some 50) = 50 ∧ daysParam (some 7) = 7 := by decide

/-- C9 counterexample: the Avg Duration stat card formatter of the dashboard
page renders 60000 as "60000ms", not as the "1m" the claim requires of every
rendering site; the execution-table formatter does produce "1m". -/
theorem C9_cex_dashboard_card_has_no_thresholds :
    formatDurationDashboard (some 60000) = "60000ms" ∧
    formatDurationDashboard (some 60000) ≠ "1m" ∧
    formatDuration (some 60000) = "1m" := by
  have hr : jsRound ((60000 : ℚ)) = 60000 := by
    have := jsRound_intCast 60000
    norm_num at this ⊢
    exact this
  have h1 : formatDurationDashboard (some 60000)
      = if (60000 : ℚ) = 0 then "0ms" else toString (jsRound (60000 : ℚ)) ++ "ms" := rfl
  have h2 : formatDuration (some 60000)
      = toString (jsRound (((60000 : Int) : ℚ) / 60000)) ++ "m" := by
    simp [formatDuration]
  have hr2 : jsRound (((60000 : Int) : ℚ) / 60000) = 1 := by
    norm_num [jsRound]
  refine ⟨?_, ?_, ?_⟩
  · rw [h1, if_neg (by norm_num), hr]; decide
  · rw [h1, if_neg (by norm_num), hr]; decide
  · rw [h2, hr2]; decide

/-- C9 amended: the millisecond / rounded-second / rounded-minute thresholds
hold for the execution-table duration formatter (cells and detail sheet);
the dashboard stat-card formatter instead always renders rounded whole
milliseconds for every nonzero value (and "0ms" for zero or absent). -/
theorem C9_amended_thresholds_table_only (v : Int) (q : ℚ) (hq : q ≠ 0) :
    (v < 1000 → formatDuration (some v) = toString v ++ "ms") ∧
    (1000 ≤ v → v ≤ 59999 → formatDuration (some v) = toString (jsRound ((v : ℚ) / 1000)) ++ "s") ∧
    (60000 ≤ v → formatDuration (some v) = toString (jsRound ((v : ℚ) / 60000)) ++ "m") ∧
    formatDurationDashboard (some q) = toString (jsRound q) ++ "ms" := by
  refine ⟨?_, ?_, ?_, ?_⟩
  · intro h; simp [formatDuration, h]
  · intro h1 h2
    have hna : ¬ (v < 1000) := by omega
    have hb : v < 60000 := by omega
    simp [formatDuration, hna, hb]
  · intro h
    have hna : ¬ (v < 1000) := by omega
    have hnb : ¬ (v < 60000) := by omega
    simp [formatDuration, hna, hnb]
  · simp [formatDurationDashboard, hq]

/-- C9 witness: the amended formatter contract evaluated at 59999ms (table)
and 125000ms (dashboard card). -/
theorem C9_amended_witness :
    formatDuration (some 59999) = "60s" ∧
    formatDurationDashboard (some 125000) = "125000ms" := by
  have h := C9_amended_thresholds_table_only 59999 125000 (by norm_num)
  constructor
  · have h2 := h.2.1 (by norm_num) (by norm_num)
    rw [h2, show jsRound (((59999 : Int) : ℚ) / 1000) = 60 from by norm_num [jsRound]]
    decide
  · have h4 := h.2.2.2
    rw [h4, show jsRound ((125000 : ℚ)) = 125000 from by norm_num [jsRound]]
    decide

/-- C5 counterexample: with an active date range, a record whose start time
is absent passes the count predicate, while the claim requires it to be
excluded. -/
theorem C5_cex_absent_start_passes :
    rNoStart.started_at = none ∧
    (onlyDateFilter { fromDate := 0 }).dateRange.isSome = true ∧
    matchesCountFilters (onlyDateFilter { fromDate := 0 }) rNoStart = true := by decide

/-- C5 amended: under an active date range, a record with a start time
passes iff that time lies within [startOfDay from, endOfDay (to or from)]
inclusive, with an absent `to` giving the single calendar day of `from`;
a record with an absent start time always passes (the clause is skipped,
exactly as for the other predicates, not stricter). -/
theorem C5_amended_date_range_clause (dr : DateRange) (r : ExecutionLog) :
    (matchesCountFilters (onlyDateFilter dr) r = true ↔
      r.started_at = none ∨ ∃ t, r.started_at = some t ∧
        startOfDay dr.fromDate ≤ t ∧ t ≤ endOfDay (dr.toDate.getD dr.fromDate)) ∧
    (matchesCountFilters (onlyDateFilter { fromDate := dr.fromDate }) r = true ↔
      r.started_at = none ∨ ∃ t, r.started_at = some t ∧
        startOfDay dr.fromDate ≤ t ∧ t ≤ startOfDay dr.fromDate + (msPerDay - 1)) := by
  constructor <;>
  · cases h : r.started_at with
    | none => simp [matchesCountFilters, onlyDateFilter, h]
    | some t => simp [matchesCountFilters, onlyDateFilter, h, endOfDay]

/-- C2: with every filter dimension null, the client re-aggregation returns
the server-supplied stats object and daily series unchanged, whatever the
fetched record set. -/
theorem C2_no_filters_short_circuit (ex : List ExecutionLog) (s : ExecutionStats)
    (daily : List DailyStats) (f : ExecutionFilters)
    (_hi : f.instanceFilter = none) (hs : f.statusFilter = none)
    (hw : f.workflowFilter = none) (hm : f.modeFilter = none) (hd : f.dateRange = none) :
    filteredStats (some ex) f (some s) = some s ∧
    filteredDailyStats (some ex) f (some daily) = daily := by
  constructor
  · simp [filteredStats, hasAnyFilters, hasCountFilters, hw, hm, hd, hs]
  · simp [filteredDailyStats, hasCountFilters, hw, hm, hd]

/-- C2 witness: the short circuit evaluated at a concrete record set, the
empty filter state and the server stats over that set. -/
theorem C2_witness :
    filteredStats (some exA) {} (some (serverStats exA)) = some (serverStats exA) ∧
    filteredDailyStats (some exA) {} (some [⟨0, 2, 2, 0⟩]) = [⟨0, 2, 2, 0⟩] :=
  C2_no_filters_short_circuit exA (serverStats exA) [⟨0, 2, 2, 0⟩] {} rfl rfl rfl rfl rfl

/-- C6: on both computation paths, totalExecutions equals the sum of the
five per-status counts, for every record set and filter state. -/
theorem C6_total_eq_sum_of_status_counts (ex : List ExecutionLog) (f : ExecutionFilters) :
    ((serverStats ex).totalExecutions =
      (serverStats ex).successCount + (serverStats ex).errorCount +
      (serverStats ex).runningCount + (serverStats ex).waitingCount +
      (serverStats ex).canceledCount) ∧
    ((computeFilteredStats ex f).totalExecutions =
      (computeFilteredStats ex f).successCount + (computeFilteredStats ex f).errorCount +
      (computeFilteredStats ex f).runningCount + (computeFilteredStats ex f).waitingCount +
      (computeFilteredStats ex f).canceledCount) := by
  constructor
  · simpa [serverStats] using length_filter_status_sum ex
  · simpa [computeFilteredStats] using
      length_filter_status_sum (ex.filter (fun item => matchesCountFilters f item))

/-- C7: on both computation paths, successRate is 0 when totalExecutions is
0 and 100 x successCount / totalExecutions otherwise, and always lies in
[0, 100]. -/
theorem C7_successRate_formula_and_bounds (ex : List ExecutionLog) (f : ExecutionFilters) :
    ((serverStats ex).successRate =
      (if (serverStats ex).totalExecutions = 0 then 0
       else 100 * ((serverStats ex).successCount : ℚ) / ((serverStats ex).totalExecutions : ℚ)) ∧
     0 ≤ (serverStats ex).successRate ∧ (serverStats ex).successRate ≤ 100) ∧
    ((computeFilteredStats ex f).successRate =
      (if (computeFilteredStats ex f).totalExecutions = 0 then 0
       else 100 * ((computeFilteredStats ex f).successCount : ℚ) /
         ((computeFilteredStats ex f).totalExecutions : ℚ)) ∧
     0 ≤ (computeFilteredStats ex f).successRate ∧
     (computeFilteredStats ex f).successRate ≤ 100) := by
  constructor
  · simpa [serverStats] using
      rate_spec (ex.filter (fun e => e.status == Status.success)).length ex.length
        (List.length_filter_le _ _)
  · simpa [computeFilteredStats] using
      rate_spec ((ex.filter (fun item => matchesCountFilters f item)).filter
          (fun e => e.status == Status.success)).length
        (ex.filter (fun item => matchesCountFilters f item)).length
        (List.length_filter_le _ _)

theorem durationFiltered_match_eq (ex : List ExecutionLog) (f : ExecutionFilters) :
    (match f.statusFilter with
     | some s => (ex.filter (fun item => matchesCountFilters f item)).filter
         (fun item => item.status == s)
     | none => ex.filter (fun item => matchesCountFilters f item))
      = durationFiltered ex f := by
  cases hs : f.statusFilter with
  | none =>
      exact (List.filter_eq_self.mpr (fun a _ => by simp [matchesStatusFilter, hs])).symm
  | some s =>
      simp only [durationFiltered, countFiltered, matchesStatusFilter, hs]

/-- C1 counterexample: over two matching success records with durations 1ms
and 2ms and a workflow filter, the client re-aggregation reports the exact
mean 3/2 while the server stats computation over the same restricted set
reports the rounded 2, so the two outputs are not identical. -/
theorem C1_cex_server_rounds_average :
    filteredStats (some exA) fA (some (serverStats exA)) = some (computeFilteredStats exA fA) ∧
    (computeFilteredStats exA fA).avgDurationMs = 3 / 2 ∧
    (serverStats (countFiltered exA fA)).avgDurationMs = 2 ∧
    filteredStats (some exA) fA (some (serverStats exA))
      ≠ some (serverStats (countFiltered exA fA)) := by
  have hclient : (computeFilteredStats exA fA).avgDurationMs = 3 / 2 := by
    norm_num [computeFilteredStats, exA, fA, matchesCountFilters, sumDurations,
      List.filterMap_cons, List.filter_cons]
  have hserver : (serverStats (countFiltered exA fA)).avgDurationMs = 2 := by
    norm_num [serverStats, countFiltered, exA, fA, matchesCountFilters, sumDurations, jsRound,
      List.filterMap_cons, List.filter_cons]
  refine ⟨rfl, hclient, hserver, ?_⟩
  intro h
  have h2 : computeFilteredStats exA fA = serverStats (countFiltered exA fA) :=
    Option.some.injEq _ _ ▸ h
  have h3 : (3 : ℚ) / 2 = 2 := by rw [← hclient, ← hserver, h2]
  norm_num at h3

/-- C1 amended: the client re-aggregation agrees with the server stats
computation over the record set restricted by the same non-status criteria
on totalExecutions, all five per-status counts and successRate; the
average duration agrees only up to the server-side Math.round (when
statusFilter is inactive the server value is the client value rounded to
the nearest integer; when statusFilter is active the client additionally
narrows the average by status, which the server-side path cannot). -/
theorem C1_amended_refinement_up_to_rounding (ex : List ExecutionLog) (f : ExecutionFilters)
    (c : ExecutionStats)
    (hc : filteredStats (some ex) f (some (serverStats ex)) = some c) :
    c.totalExecutions = (serverStats (countFiltered ex f)).totalExecutions ∧
    c.successCount = (serverStats (countFiltered ex f)).successCount ∧
    c.errorCount = (serverStats (countFiltered ex f)).errorCount ∧
    c.runningCount = (serverStats (countFiltered ex f)).runningCount ∧
    c.waitingCount = (serverStats (countFiltered ex f)).waitingCount ∧
    c.canceledCount = (serverStats (countFiltered ex f)).canceledCount ∧
    c.successRate = (serverStats (countFiltered ex f)).successRate ∧
    (f.statusFilter = none →
      (serverStats (countFiltered ex f)).avgDurationMs = ((jsRound c.avgDurationMs : Int) : ℚ)) := by
  by_cases hA : hasAnyFilters f = true
  · have hc2 : computeFilteredStats ex f = c := by
      simpa [filteredStats, hA] using hc
    subst hc2
    refine ⟨rfl, rfl, rfl, rfl, rfl, rfl, rfl, ?_⟩
    intro hs
    simp only [computeFilteredStats, serverStats, countFiltered, hs]
    by_cases hl :
        ((ex.filter (fun item => matchesCountFilters f item)).filterMap
          (fun e => e.duration_ms)).length > 0
    · rw [if_pos hl, if_pos hl]
    · rw [if_neg hl, if_neg hl, jsRound_zero]
      norm_num
  · have hA' : hasAnyFilters f = false := by simpa using hA
    have hparts : ((f.workflowFilter = none ∧ f.modeFilter = none) ∧ f.dateRange = none) ∧
        f.statusFilter = none := by
      simpa [hasAnyFilters, hasCountFilters] using hA'
    obtain ⟨⟨⟨hw, hm⟩, hd⟩, hs⟩ := hparts
    have hcf : countFiltered ex f = ex := countFiltered_of_none hw hm hd ex
    have hc2 : serverStats ex = c := by
      simpa [filteredStats, hA'] using hc
    subst hc2
    rw [hcf]
    refine ⟨rfl, rfl, rfl, rfl, rfl, rfl, rfl, ?_⟩
    intro _
    simp only [serverStats]
    by_cases hl : (ex.filterMap (fun e => e.duration_ms)).length > 0
    · rw [if_pos hl, jsRound_intCast]
    · rw [if_neg hl, jsRound_zero]
      norm_num

/-- C1 witness: the amended refinement evaluated at two success records and
a workflow filter. -/
theorem C1_amended_witness :
    (computeFilteredStats exA fA).totalExecutions
      = (serverStats (countFiltered exA fA)).totalExecutions ∧
    (computeFilteredStats exA fA).successCount
      = (serverStats (countFiltered exA fA)).successCount ∧
    (computeFilteredStats exA fA).errorCount
      = (serverStats (countFiltered exA fA)).errorCount ∧
    (computeFilteredStats exA fA).runningCount
      = (serverStats (countFiltered exA fA)).runningCount ∧
    (computeFilteredStats exA fA).waitingCount
      = (serverStats (countFiltered exA fA)).waitingCount ∧
    (computeFilteredStats exA fA).canceledCount
      = (serverStats (countFiltered exA fA)).canceledCount ∧
    (computeFilteredStats exA fA).successRate
      = (serverStats (countFiltered exA fA)).successRate ∧
    (fA.statusFilter = none →
      (serverStats (countFiltered exA fA)).avgDurationMs
        = ((jsRound (computeFilteredStats exA fA).avgDurationMs : Int) : ℚ)) :=
  C1_amended_refinement_up_to_rounding exA fA (computeFilteredStats exA fA) rfl

/-- C3: with at least one active dimension, the client recompute path is
used; totalExecutions and the per-status counts come from the subset
passing the workflow/mode/dateRange predicate with statusFilter ignored
(null-duration records included); the average duration is the mean of the
non-null durations of that subset further narrowed by the status predicate,
and 0 when no such member exists. -/
theorem C3_counts_ignore_status_avg_narrowed (ex : List ExecutionLog) (f : ExecutionFilters)
    (h : hasAnyFilters f = true) (st : Option ExecutionStats) :
    filteredStats (some ex) f st = some (computeFilteredStats ex f) ∧
    (computeFilteredStats ex f).totalExecutions = (countFiltered ex f).length ∧
    (computeFilteredStats ex f).successCount
      = ((countFiltered ex f).filter (fun e => e.status == Status.success)).length ∧
    (computeFilteredStats ex f).errorCount
      = ((countFiltered ex f).filter (fun e => e.status == Status.error)).length ∧
    (computeFilteredStats ex f).runningCount
      = ((countFiltered ex f).filter (fun e => e.status == Status.running)).length ∧
    (computeFilteredStats ex f).waitingCount
      = ((countFiltered ex f).filter (fun e => e.status == Status.waiting)).length ∧
    (computeFilteredStats ex f).canceledCount
      = ((countFiltered ex f).filter (fun e => e.status == Status.canceled)).length ∧
    (computeFilteredStats ex f).avgDurationMs =
      (if ((durationFiltered ex f).filterMap (fun e => e.duration_ms)).length = 0 then 0
       else (sumDurations ((durationFiltered ex f).filterMap (fun e => e.duration_ms)) : ℚ)
         / (((durationFiltered ex f).filterMap (fun e => e.duration_ms)).length : ℚ)) := by
  refine ⟨by simp [filteredStats, h], rfl, rfl, rfl, rfl, rfl, rfl, ?_⟩
  simp only [computeFilteredStats]
  rw [durationFiltered_match_eq ex f]
  by_cases hl : ((durationFiltered ex f).filterMap (fun e => e.duration_ms)).length = 0
  · rw [if_pos hl, if_neg (by omega)]
  · rw [if_neg hl, if_pos (by omega)]

/-- C3 witness: the recompute characterisation evaluated at two success
records and a workflow filter. -/
theorem C3_witness :
    filteredStats (some exA) fA none = some (computeFilteredStats exA fA) ∧
    (computeFilteredStats exA fA).totalExecutions = (countFiltered exA fA).length ∧
    (computeFilteredStats exA fA).successCount
      = ((countFiltered exA fA).filter (fun e => e.status == Status.success)).length ∧
    (computeFilteredStats exA fA).errorCount
      = ((countFiltered exA fA).filter (fun e => e.status == Status.error)).length ∧
    (computeFilteredStats exA fA).runningCount
      = ((countFiltered exA fA).filter (fun e => e.status == Status.running)).length ∧
    (computeFilteredStats exA fA).waitingCount
      = ((countFiltered exA fA).filter (fun e => e.status == Status.waiting)).length ∧
    (computeFilteredStats exA fA).canceledCount
      = ((countFiltered exA fA).filter (fun e => e.status == Status.canceled)).length ∧
    (computeFilteredStats exA fA).avgDurationMs =
      (if ((durationFiltered exA fA).filterMap (fun e => e.duration_ms)).length = 0 then 0
       else (sumDurations ((durationFiltered exA fA).filterMap (fun e => e.duration_ms)) : ℚ)
         / (((durationFiltered exA fA).filterMap (fun e => e.duration_ms)).length : ℚ)) :=
  C3_counts_ignore_status_avg_narrowed exA fA rfl none

/-- C4 counterexample: over one success and one error record, both 100ms,
toggling statusFilter to error changes the duration-eligible subset but
leaves avgDurationMs at its pre-toggle server value of 100, so "changes
avgDurationMs when the filtered duration subset differs" fails. -/
theorem C4_cex_avg_can_coincide :
    (durationFiltered exB fErr).filterMap (fun e => e.duration_ms)
      ≠ (durationFiltered exB {}).filterMap (fun e => e.duration_ms) ∧
    filteredStats (some exB) {} (some (serverStats exB)) = some (serverStats exB) ∧
    filteredStats (some exB) fErr (some (serverStats exB))
      = some (computeFilteredStats exB fErr) ∧
    (computeFilteredStats exB fErr).avgDurationMs = (serverStats exB).avgDurationMs := by
  refine ⟨by decide, rfl, rfl, ?_⟩
  have hclient : (computeFilteredStats exB fErr).avgDurationMs = 100 := by
    norm_num [computeFilteredStats, exB, fErr, matchesCountFilters, sumDurations,
      List.filterMap_cons, List.filter_cons,
      show Status.success ≠ Status.error from by decide]
  have hserver : (serverStats exB).avgDurationMs = 100 := by
    norm_num [serverStats, exB, sumDurations, jsRound, List.filterMap_cons]
  rw [hclient, hserver]

/-- C4 amended: toggling statusFilter alone (all other dimensions absent)
leaves totalExecutions, every per-status count and the daily-bucket series
unchanged from their pre-toggle server-provided values (the server stats
being computed over the same fetched record set); avgDurationMs is
recomputed as the mean non-null duration of the status-matching records, so
it can move only through that subset and may coincide with the pre-toggle
value even when the subset differs. -/
theorem C4_amended_status_toggle_frame (ex : List ExecutionLog) (s : Status)
    (daily : List DailyStats) (_hne : ex ≠ []) :
    filteredStats (some ex) {} (some (serverStats ex)) = some (serverStats ex) ∧
    filteredStats (some ex) { statusFilter := some s } (some (serverStats ex))
      = some (computeFilteredStats ex { statusFilter := some s }) ∧
    (computeFilteredStats ex { statusFilter := some s }).totalExecutions
      = (serverStats ex).totalExecutions ∧
    (computeFilteredStats ex { statusFilter := some s }).successCount
      = (serverStats ex).successCount ∧
    (computeFilteredStats ex { statusFilter := some s }).errorCount
      = (serverStats ex).errorCount ∧
    (computeFilteredStats ex { statusFilter := some s }).runningCount
      = (serverStats ex).runningCount ∧
    (computeFilteredStats ex { statusFilter := some s }).waitingCount
      = (serverStats ex).waitingCount ∧
    (computeFilteredStats ex { statusFilter := some s }).canceledCount
      = (serverStats ex).canceledCount ∧
    filteredDailyStats (some ex) { statusFilter := some s } (some daily) = daily ∧
    (computeFilteredStats ex { statusFilter := some s }).avgDurationMs =
      (if ((ex.filter (fun e => e.status == s)).filterMap (fun e => e.duration_ms)).length = 0
       then 0
       else (sumDurations ((ex.filter (fun e => e.status == s)).filterMap
              (fun e => e.duration_ms)) : ℚ)
         / (((ex.filter (fun e => e.status == s)).filterMap (fun e => e.duration_ms)).length : ℚ)) := by
  have hfx : ex.filter
      (fun item => matchesCountFilters { statusFilter := some s } item) = ex :=
    List.filter_eq_self.mpr (fun a _ => matchesCountFilters_of_none rfl rfl rfl a)
  refine ⟨rfl, rfl, ?_, ?_, ?_, ?_, ?_, ?_, rfl, ?_⟩
  · simp only [computeFilteredStats, serverStats, hfx]
  · simp only [computeFilteredStats, serverStats, hfx]
  · simp only [computeFilteredStats, serverStats, hfx]
  · simp only [computeFilteredStats, serverStats, hfx]
  · simp only [computeFilteredStats, serverStats, hfx]
  · simp only [computeFilteredStats, serverStats, hfx]
  · simp only [computeFilteredStats, hfx]
    by_cases hl : ((ex.filter (fun e => e.status == s)).filterMap
        (fun e => e.duration_ms)).length = 0
    · rw [if_pos hl, if_neg (by omega)]
    · rw [if_neg hl, if_pos (by omega)]

/-- C4 witness: the status-toggle frame property evaluated at the
one-success one-error sample. -/
theorem C4_amended_witness :
    filteredStats (some exB) {} (some (serverStats exB)) = some (serverStats exB) ∧
    filteredStats (some exB) { statusFilter := some Status.error } (some (serverStats exB))
      = some (computeFilteredStats exB { statusFilter := some Status.error }) ∧
    (computeFilteredStats exB { statusFilter := some Status.error }).totalExecutions
      = (serverStats exB).totalExecutions ∧
    (computeFilteredStats exB { statusFilter := some Status.error }).successCount
      = (serverStats exB).successCount ∧
    (computeFilteredStats exB { statusFilter := some Status.error }).errorCount
      = (serverStats exB).errorCount ∧
    (computeFilteredStats exB { statusFilter := some Status.error }).runningCount
      = (serverStats exB).runningCount ∧
    (computeFilteredStats exB { statusFilter := some Status.error }).waitingCount
      = (serverStats exB).waitingCount ∧
    (computeFilteredStats exB { statusFilter := some Status.error }).canceledCount
      = (serverStats exB).canceledCount ∧
    filteredDailyStats (some exB) { statusFilter := some Status.error } (some []) = [] ∧
    (computeFilteredStats exB { statusFilter := some Status.error }).avgDurationMs =
      (if ((exB.filter (fun e => e.status == Status.error)).filterMap
            (fun e => e.duration_ms)).length = 0
       then 0
       else (sumDurations ((exB.filter (fun e => e.status == Status.error)).filterMap
              (fun e => e.duration_ms)) : ℚ)
         / (((exB.filter (fun e => e.status == Status.error)).filterMap
              (fun e => e.duration_ms)).length : ℚ)) :=
  C4_amended_status_toggle_frame exB Status.error [] (by decide)

/- =================== map lemmas for the daily handler ================== -/

theorem foldl_inv {α β : Type _} {P : β → Prop} (f : β → α → β) (l : List α)
    (h : ∀ b, ∀ a ∈ l, P b → P (f b a)) (b : β) (hb : P b) : P (l.foldl f b) := by
  induction l generalizing b with
  | nil => simpa using hb
  | cons a t ih =>
      simp only [List.foldl_cons]
      exact ih (fun b' a' ha' hb' => h b' a' (List.mem_cons_of_mem _ ha') hb') _
        (h b a (List.mem_cons_self _ _) hb)

theorem countKeyB_map_update (m : List (Int × DayBucket)) (k d : Int) (v : DayBucket) :
    countKeyB (m.map (fun p => if p.1 == k then (k, v) else p)) d = countKeyB m d := by
  have hfst : ∀ p : Int × DayBucket, ((if p.1 == k then (k, v) else p).1) = p.1 := by
    intro p
    by_cases h : p.1 == k
    · simp only [if_pos h]
      exact (eq_of_beq h).symm
    · simp only [if_neg h]
  unfold countKeyB
  rw [List.filter_map, List.length_map]
  congr 1
  apply List.filter_congr
  intro q _
  by_cases hq : q.1 = k
  · simp [Function.comp, hq]
  · simp [Function.comp, hq]

theorem countKeyB_amSet (m : List (Int × DayBucket)) (k d : Int) (v : DayBucket)
    (h : countKeyB m d = 1) : countKeyB (amSet m k v) d = 1 := by
  unfold amSet
  by_cases hf : (m.find? (fun p => p.1 == k)).isSome
  · rw [if_pos hf, countKeyB_map_update]
    exact h
  · rw [if_neg hf]
    have hnone : m.find? (fun p => p.1 == k) = none := Option.not_isSome_iff_eq_none.mp hf
    have hmem : ∀ p ∈ m, ¬ ((p.1 == k) = true) := List.find?_eq_none.mp hnone
    by_cases hkd : k = d
    · exfalso
      subst hkd
      have hzero : countKeyB m k = 0 := by
        unfold countKeyB
        rw [List.length_eq_zero]
        exact List.filter_eq_nil_iff.mpr hmem
      omega
    · unfold countKeyB
      rw [List.filter_append]
      have hsingle : List.filter (fun p => p.1 == d) [((k, v) : Int × DayBucket)] = [] := by
        simp [List.filter_cons, hkd]
      rw [hsingle, List.append_nil]
      exact h

theorem find?_map_update_of_ne (m : List (Int × DayBucket)) (k d : Int) (v : DayBucket)
    (hkd : k ≠ d) :
    (m.map (fun p => if p.1 == k then (k, v) else p)).find? (fun p => p.1 == d)
      = m.find? (fun p => p.1 == d) := by
  induction m with
  | nil => rfl
  | cons p t ih =>
      simp only [List.map_cons, List.find?]
      by_cases hpk : (p.1 == k) = true
      · have hpk' : p.1 = k := eq_of_beq hpk
        have hpd : (p.1 == d) = false := by
          simp [hpk']
          exact hkd
        have hsc : (((if (p.1 == k) = true then (k, v) else p) : Int × DayBucket).1 == d)
            = false := by
          rw [if_pos hpk]
          simp
          exact hkd
        rw [hsc, hpd]
        exact ih
      · have hpk2 : (p.1 == k) = false := by simpa using hpk
        have hsc : (((if (p.1 == k) = true then (k, v) else p) : Int × DayBucket).1 == d)
            = (p.1 == d) := by
          rw [hpk2]
          simp
        rw [hsc]
        cases hpd : (p.1 == d) with
        | true => rw [if_neg hpk]
        | false => exact ih

theorem find?_append_single_of_ne (m : List (Int × DayBucket)) (k d : Int) (v : DayBucket)
    (hkd : k ≠ d) :
    (m ++ [(k, v)]).find? (fun p => p.1 == d) = m.find? (fun p => p.1 == d) := by
  induction m with
  | nil =>
      have hkdb : (k == d) = false := by
        simp
        exact hkd
      simp [List.find?, hkdb]
  | cons p t ih =>
      simp only [List.cons_append, List.find?]
      cases hpd : (p.1 == d) with
      | true => rfl
      | false => exact ih

theorem amGet_amSet_of_ne (m : List (Int × DayBucket)) (k d : Int) (v : DayBucket)
    (hkd : k ≠ d) : amGet (amSet m k v) d = amGet m d := by
  unfold amGet amSet
  by_cases hf : (m.find? (fun p => p.1 == k)).isSome
  · rw [if_pos hf, find?_map_update_of_ne m k d v hkd]
  · rw [if_neg hf, find?_append_single_of_ne m k d v hkd]

theorem amGet_of_count_one_all_zero (m : List (Int × DayBucket)) (d : Int)
    (hz : ∀ p ∈ m, p.2 = zeroBucket) (h : countKeyB m d = 1) :
    amGet m d = some zeroBucket := by
  induction m with
  | nil => simp [countKeyB] at h
  | cons p t ih =>
      cases hpd : (p.1 == d) with
      | true =>
          have hp2 : p.2 = zeroBucket := hz p (List.mem_cons_self _ _)
          simp [amGet, List.find?, hpd, hp2]
      | false =>
          have h' : countKeyB t d = 1 := by
            simpa [countKeyB, List.filter_cons, hpd] using h
          simpa [amGet, List.find?, hpd] using
            ih (fun q hq => hz q (List.mem_cons_of_mem _ hq)) h'

theorem mem_of_amGet (m : List (Int × DayBucket)) (d : Int) (b : DayBucket)
    (h : amGet m d = some b) : (d, b) ∈ m := by
  unfold amGet at h
  cases hfind : m.find? (fun p => p.1 == d) with
  | none => simp [hfind] at h
  | some e =>
      simp only [hfind, Option.map_some] at h
      have h1 := List.find?_some hfind
      have h2 : e ∈ m := List.mem_of_find?_eq_some hfind
      have he : e = (d, b) := by
        have := eq_of_beq h1
        cases e
        simp_all
      rwa [he] at h2

theorem serverSeed_all_zero (today : Int) (days : Nat) :
    ∀ p ∈ serverSeed today days, p.2 = zeroBucket := by
  intro p hp
  unfold serverSeed at hp
  obtain ⟨i, _, hi⟩ := List.mem_map.mp hp
  rw [← hi]

theorem serverSeed_zero (today : Int) : serverSeed today 0 = [(today, zeroBucket)] := by
  unfold serverSeed
  norm_num [List.range_succ]

theorem serverSeed_succ (today : Int) (days : Nat) :
    serverSeed today (days + 1)
      = (today - ((days : Int) + 1), zeroBucket) :: serverSeed today days := by
  unfold serverSeed
  rw [List.range_succ_eq_map, List.map_cons, List.map_map]
  congr 1
  · norm_num

theorem countKeyB_cons (k : Int) (v : DayBucket) (t : List (Int × DayBucket)) (d : Int) :
    countKeyB ((k, v) :: t) d
      = (if k = d then 1 else 0) + countKeyB t d := by
  by_cases hkd : k = d
  · simp [countKeyB, List.filter_cons, hkd]
    omega
  · simp [countKeyB, List.filter_cons, hkd]

theorem serverSeed_count_out (today : Int) (days : Nat) (d : Int)
    (hout : d < today - days ∨ today < d) : countKeyB (serverSeed today days) d = 0 := by
  induction days with
  | zero =>
      rw [serverSeed_zero, countKeyB_cons]
      have hne : ¬ (today = d) := by omega
      simp [countKeyB, hne]
  | succ n ih =>
      rw [serverSeed_succ, countKeyB_cons]
      have hne : ¬ (today - ((n : Int) + 1) = d) := by omega
      have hih := ih (by omega)
      simp [hne, hih]

theorem serverSeed_count (today : Int) (days : Nat) (d : Int)
    (h1 : today - days ≤ d) (h2 : d ≤ today) : countKeyB (serverSeed today days) d = 1 := by
  induction days with
  | zero =>
      have hd : today = d := by omega
      rw [serverSeed_zero, countKeyB_cons]
      simp [countKeyB, hd]
  | succ n ih =>
      rw [serverSeed_succ, countKeyB_cons]
      by_cases hd : today - ((n : Int) + 1) = d
      · have hout : countKeyB (serverSeed today n) d = 0 :=
          serverSeed_count_out today n d (by omega)
        simp [hd, hout]
      · have hin : today - (n : Int) ≤ d := by omega
        have hih := ih hin
        simp [hd, hih]

theorem serverSeed_mem (today : Int) (days : Nat) (d : Int)
    (h1 : today - days ≤ d) (h2 : d ≤ today) : (d, zeroBucket) ∈ serverSeed today days :=
  mem_of_amGet _ d zeroBucket
    (amGet_of_count_one_all_zero _ d (serverSeed_all_zero today days)
      (serverSeed_count today days d h1 h2))

theorem countDate_map_entries (m : List (Int × DayBucket)) (d : Int) :
    countDate (m.map (fun p =>
      ({ date := p.1, total := p.2.total, success := p.2.success, error := p.2.error }
        : DailyStats))) d = countKeyB m d := by
  unfold countDate countKeyB
  rw [List.filter_map, List.length_map]
  congr 1

/-- C8: for every window size, the daily handler pre-seeds one zero bucket
per calendar day of [today - days, today]; every day of the window appears
exactly once in the output, and carries the zero bucket when no fetched row
falls on it. -/
theorem C8_daily_window_gap_free (now : Int) (days : Nat) (rows : List (Int × Status))
    (d : Int) (h1 : dayOf now - days ≤ d) (h2 : d ≤ dayOf now) :
    (d, zeroBucket) ∈ serverSeed (dayOf now) days ∧
    countDate (dailyHandler now days rows) d = 1 ∧
    (((rows.filter (fun r => decide (now - (days : Int) * msPerDay ≤ r.1))).all
        (fun r => ! (dayOf r.1 == d))) = true →
      ({ date := d, total := 0, success := 0, error := 0 } : DailyStats)
        ∈ dailyHandler now days rows) := by
  refine ⟨serverSeed_mem (dayOf now) days d h1 h2, ?_, ?_⟩
  · unfold dailyHandler
    rw [countDate_map_entries]
    exact foldl_inv _ _
      (fun m r _ hm => countKeyB_amSet m (dayOf r.1) d _ hm)
      _ (serverSeed_count (dayOf now) days d h1 h2)
  · intro hall
    unfold dailyHandler
    have hbase : amGet (serverSeed (dayOf now) days) d = some zeroBucket :=
      amGet_of_count_one_all_zero _ d (serverSeed_all_zero (dayOf now) days)
        (serverSeed_count (dayOf now) days d h1 h2)
    have hstep : ∀ m, ∀ r ∈ rows.filter (fun r => decide (now - (days : Int) * msPerDay ≤ r.1)),
        amGet m d = some zeroBucket →
        amGet (amSet m (dayOf r.1)
          (let existing := (amGet m (dayOf r.1)).getD zeroBucket
           let b1 : DayBucket := { existing with total := existing.total + 1 }
           if r.2 == Status.success then { b1 with success := b1.success + 1 }
           else if r.2 == Status.error then { b1 with error := b1.error + 1 } else b1)) d
          = some zeroBucket := by
      intro m r hr hm
      have hne : dayOf r.1 ≠ d := by
        have := List.all_eq_true.mp hall r hr
        simpa using this
      rw [amGet_amSet_of_ne _ _ _ _ hne]
      exact hm
    have hfold := foldl_inv
      (P := fun m => amGet m d = some zeroBucket) _
      (rows.filter (fun r => decide (now - (days : Int) * msPerDay ≤ r.1)))
      hstep _ hbase
    have hmem := mem_of_amGet _ d zeroBucket hfold
    exact List.mem_map_of_mem _ hmem

/-- C8 witness: the gap-free window property at a two-day window over an
empty store. -/
theorem C8_witness :
    ((-1 : Int), zeroBucket) ∈ serverSeed (dayOf 0) 1 ∧
    countDate (dailyHandler 0 1 []) (-1) = 1 ∧
    ((([] : List (Int × Status)).filter
        (fun r => decide (0 - ((1 : Nat) : Int) * msPerDay ≤ r.1))).all
        (fun r => ! (dayOf r.1 == (-1 : Int))) = true →
      ({ date := -1, total := 0, success := 0, error := 0 } : DailyStats)
        ∈ dailyHandler 0 1 []) :=
  C8_daily_window_gap_free 0 1 [] (-1) (by decide) (by decide)

end NDash
